import Mathlib

/-!
Shallow embedding of `src/utils/util_create_label_masks.py` from the
NiChart_RAVENS repository, together with proofs of the specified
properties of the mask-extraction utility.

Voxel values are modelled as exact rationals (`ℚ`): the source compares
voxel values for exact equality, and `ℚ` gives a decidable, exact
numeric carrier covering both the integer and the non-integral label
values the code can encounter.  A loaded NIfTI image is a voxel grid
(flattened to a list; the grid shape is its length) together with an
opaque affine transform and an opaque header.  The side effects of the
Python function (file writes and console prints) are modelled as an
explicit trace of events returned by the function.
-/

/-- A loaded volumetric image: voxel data of value type `γ`, an affine
transform of opaque type `α` and header metadata of opaque type `β`.
Mirrors the `nibabel` image triple `(get_fdata(), affine, header)`. -/
structure NiftiImage (α β γ : Type) where
  data : List γ
  affine : α
  header : β
  deriving DecidableEq

/-- One observable side effect of the utility: saving a volume, printing
a console line, or saving a text file (one row per list entry, mirroring
`np.savetxt`). -/
inductive Event (α β : Type) where
  | saveNii (fname : String) (img : NiftiImage α β Int)
  | print (msg : String)
  | saveTxt (fname : String) (rows : List String)
  deriving DecidableEq

/-- Python's `int()` applied to a numeric label: truncation toward zero.
For a rational `q = num / den` (with `den > 0`) this is `num.tdiv den`. -/
def pyInt (q : ℚ) : Int :=
  q.num.tdiv q.den

/-- `np.unique`: the distinct values of the (flattened) array, in
ascending order. -/
def npUnique (d : List ℚ) : List ℚ :=
  List.insertionSort (· ≤ ·) d.dedup

/-- Line 22-23 of the source: `labels = np.unique(seg_data);
labels = labels[labels != 0]`. -/
def discoveredLabels (seg_data : List ℚ) : List ℚ :=
  (npUnique seg_data).filter (fun x => decide (x ≠ 0))

/-- Line 25 of the source:
`labels = [lbl for lbl in label_list if lbl in np.unique(seg_data)]`. -/
def filteredLabels (seg_data : List ℚ) (label_list : List ℚ) : List ℚ :=
  label_list.filter (fun lbl => decide (lbl ∈ npUnique seg_data))

/-- Line 31 of the source: `out_data = (seg_data == label).astype(int)`:
elementwise exact-equality test, cast to integer 0/1. -/
def makeMask (seg_data : List ℚ) (label : ℚ) : List Int :=
  seg_data.map (fun v => if v = label then 1 else 0)

/-- Line 34 of the source: the output file name
`f"{out_prefix}{int(label)}.nii.gz"`. -/
def fnameOf (pfx : String) (label : ℚ) : String :=
  pfx ++ toString (pyInt label) ++ ".nii.gz"

/-- Line 33 of the source: `nib.Nifti1Image(out_data, affine=seg_nii.affine,
header=seg_nii.header)`: the output volume reuses the source affine and
header verbatim. -/
def maskImage {α β : Type} (seg_nii : NiftiImage α β ℚ) (label : ℚ) :
    NiftiImage α β Int :=
  ⟨makeMask seg_nii.data label, seg_nii.affine, seg_nii.header⟩

/-- Lines 30-36 of the source: the body of the per-label loop — save the
mask volume, then report it on the console. -/
def perLabelEvents {α β : Type} (seg_nii : NiftiImage α β ℚ) (pfx : String)
    (label : ℚ) : List (Event α β) :=
  [Event.saveNii (fnameOf pfx label) (maskImage seg_nii label),
   Event.print ("Saved label " ++ toString (pyInt label) ++ " to "
     ++ fnameOf pfx label)]

/-- Lines 39-41 of the source: write the label manifest
`f'{out_prefix}List.csv'` via `np.savetxt(out_list, labels, fmt="%d")`
(one `%d`-formatted row per label, i.e. truncation toward zero), then
report it. -/
def manifestEvents {α β : Type} (pfx : String) (labels : List ℚ) :
    List (Event α β) :=
  [Event.saveTxt (pfx ++ "List.csv") (labels.map (fun l => toString (pyInt l))),
   Event.print ("Saved list of labels to " ++ (pfx ++ "List.csv"))]

/-- The function `util_create_label_masks` of the source, as a pure map
from the loaded image and the arguments to the trace of side effects.
`label_list = none` is Python's `label_list=None`. -/
def util_create_label_masks {α β : Type} (seg_nii : NiftiImage α β ℚ)
    (pfx : String) (label_list : Option (List ℚ)) : List (Event α β) :=
  let seg_data := seg_nii.data
  match label_list with
  | none =>
      let labels := discoveredLabels seg_data
      (labels.map (perLabelEvents seg_nii pfx)).flatten ++ manifestEvents pfx labels
  | some ll =>
      let labels := filteredLabels seg_data ll
      if labels.length = 0 then
        [Event.print "No specified labels found in segmentation."]
      else
        (labels.map (perLabelEvents seg_nii pfx)).flatten ++ manifestEvents pfx labels

/-- The labels the function iterates over, per mode (only meaningful when
the explicit-list mode does not return early). -/
def resolvedLabels (seg_data : List ℚ) : Option (List ℚ) → List ℚ
  | none => discoveredLabels seg_data
  | some ll => filteredLabels seg_data ll

/-- The volume-save events of a trace, in order, as (file name, image). -/
def savedNiis {α β : Type} (evs : List (Event α β)) :
    List (String × NiftiImage α β Int) :=
  evs.filterMap (fun e =>
    match e with
    | Event.saveNii f img => some (f, img)
    | _ => none)

/-- The text-file-save events of a trace, in order, as (file name, rows). -/
def savedTxts {α β : Type} (evs : List (Event α β)) :
    List (String × List String) :=
  evs.filterMap (fun e =>
    match e with
    | Event.saveTxt f rows => some (f, rows)
    | _ => none)

/-- The non-integral rational 5/2 in lowest terms, used as a concrete
non-integral label value. -/
def qFiveHalves : ℚ := ⟨5, 2, by decide, by decide⟩

example : npUnique [2, 0, 1, 2] = [0, 1, 2] := by decide

example : discoveredLabels [0, 1, 2, 1] = [1, 2] := by decide

lemma mem_npUnique {d : List ℚ} {x : ℚ} : x ∈ npUnique d ↔ x ∈ d := by
  simp [npUnique, List.mem_insertionSort, List.mem_dedup]

lemma nodup_npUnique (d : List ℚ) : (npUnique d).Nodup :=
  ((List.perm_insertionSort _ _).nodup_iff).mpr d.nodup_dedup

lemma sorted_le_npUnique (d : List ℚ) : (npUnique d).Sorted (· ≤ ·) :=
  List.sorted_insertionSort _ _

lemma sorted_lt_npUnique (d : List ℚ) : (npUnique d).Sorted (· < ·) :=
  (sorted_le_npUnique d).lt_of_le (nodup_npUnique d)

lemma savedNiis_perLabel_flatten {α β : Type} (seg_nii : NiftiImage α β ℚ)
    (pfx : String) (labels : List ℚ) :
    savedNiis ((labels.map (perLabelEvents seg_nii pfx)).flatten)
      = labels.map (fun l => (fnameOf pfx l, maskImage seg_nii l)) := by
  induction labels with
  | nil => rfl
  | cons a t ih =>
      simp only [List.map_cons, List.flatten_cons, savedNiis,
        List.filterMap_append] at ih ⊢
      rw [ih]
      rfl

lemma savedTxts_perLabel_flatten {α β : Type} (seg_nii : NiftiImage α β ℚ)
    (pfx : String) (labels : List ℚ) :
    savedTxts ((labels.map (perLabelEvents seg_nii pfx)).flatten) = [] := by
  induction labels with
  | nil => rfl
  | cons a t ih =>
      simp only [List.map_cons, List.flatten_cons, savedTxts,
        List.filterMap_append] at ih ⊢
      rw [ih]
      rfl

lemma util_early {α β : Type} (seg_nii : NiftiImage α β ℚ) (pfx : String)
    (ll : List ℚ) (hemp : filteredLabels seg_nii.data ll = []) :
    util_create_label_masks seg_nii pfx (some ll)
      = [Event.print "No specified labels found in segmentation."] := by
  simp [util_create_label_masks, hemp]

lemma util_run_eq {α β : Type} (seg_nii : NiftiImage α β ℚ) (pfx : String)
    (label_list : Option (List ℚ))
    (h : label_list = none ∨ resolvedLabels seg_nii.data label_list ≠ []) :
    util_create_label_masks seg_nii pfx label_list
      = ((resolvedLabels seg_nii.data label_list).map
            (perLabelEvents seg_nii pfx)).flatten
        ++ manifestEvents pfx (resolvedLabels seg_nii.data label_list) := by
  cases label_list with
  | none => rfl
  | some ll =>
      have hne : filteredLabels seg_nii.data ll ≠ [] := by
        rcases h with h | h
        · cases h
        · exact h
      have hlen : ¬ (filteredLabels seg_nii.data ll).length = 0 := by
        simpa [List.length_eq_zero] using hne
      simp [util_create_label_masks, resolvedLabels, hlen]

lemma savedNiis_append {α β : Type} (a b : List (Event α β)) :
    savedNiis (a ++ b) = savedNiis a ++ savedNiis b := by
  simp [savedNiis]

lemma savedTxts_append {α β : Type} (a b : List (Event α β)) :
    savedTxts (a ++ b) = savedTxts a ++ savedTxts b := by
  simp [savedTxts]

lemma savedNiis_manifest {α β : Type} (pfx : String) (labels : List ℚ) :
    savedNiis (manifestEvents (α := α) (β := β) pfx labels) = [] := rfl

lemma savedTxts_manifest {α β : Type} (pfx : String) (labels : List ℚ) :
    savedTxts (manifestEvents (α := α) (β := β) pfx labels)
      = [(pfx ++ "List.csv", labels.map (fun l => toString (pyInt l)))] := rfl

lemma savedNiis_util {α β : Type} (seg_nii : NiftiImage α β ℚ) (pfx : String)
    (label_list : Option (List ℚ))
    (h : label_list = none ∨ resolvedLabels seg_nii.data label_list ≠ []) :
    savedNiis (util_create_label_masks seg_nii pfx label_list)
      = (resolvedLabels seg_nii.data label_list).map
          (fun l => (fnameOf pfx l, maskImage seg_nii l)) := by
  rw [util_run_eq seg_nii pfx label_list h, savedNiis_append,
    savedNiis_perLabel_flatten, savedNiis_manifest, List.append_nil]

lemma savedTxts_util {α β : Type} (seg_nii : NiftiImage α β ℚ) (pfx : String)
    (label_list : Option (List ℚ))
    (h : label_list = none ∨ resolvedLabels seg_nii.data label_list ≠ []) :
    savedTxts (util_create_label_masks seg_nii pfx label_list)
      = [(pfx ++ "List.csv",
          (resolvedLabels seg_nii.data label_list).map
            (fun l => toString (pyInt l)))] := by
  rw [util_run_eq seg_nii pfx label_list h, savedTxts_append,
    savedTxts_perLabel_flatten, savedTxts_manifest, List.nil_append]

/-- C1: for every loaded voxel grid and every processed label, the mask
saved for that label has value 1 exactly at the voxels whose source value
equals the label (exact equality over the exact numeric carrier), and 0
elsewhere. -/
theorem mask_pointwise_correct {α β : Type} (seg_nii : NiftiImage α β ℚ)
    (pfx : String) (label_list : Option (List ℚ)) (label : ℚ)
    (h : label ∈ resolvedLabels seg_nii.data label_list) :
    (fnameOf pfx label, maskImage seg_nii label)
        ∈ savedNiis (util_create_label_masks seg_nii pfx label_list) ∧
    ∀ i : ℕ, (maskImage seg_nii label).data[i]?
        = seg_nii.data[i]?.map (fun v => if v = label then (1 : Int) else 0) := by
  constructor
  · rw [savedNiis_util seg_nii pfx label_list
      (Or.inr (List.ne_nil_of_mem h))]
    exact List.mem_map_of_mem _ h
  · intro i
    simp [maskImage, makeMask]

/-- Witness for C1: on the grid `[0, 1, 2, 1]` with auto-discovery, the
label 1 is processed and the theorem applies to it. -/
theorem mask_pointwise_correct_witness :
    (1 : ℚ) ∈ resolvedLabels ([0, 1, 2, 1] : List ℚ) none ∧
    ((fnameOf "m_" 1, maskImage (⟨[0, 1, 2, 1], (), ()⟩ :
          NiftiImage Unit Unit ℚ) 1)
        ∈ savedNiis (util_create_label_masks
            (⟨[0, 1, 2, 1], (), ()⟩ : NiftiImage Unit Unit ℚ) "m_" none) ∧
      ∀ i : ℕ, (maskImage (⟨[0, 1, 2, 1], (), ()⟩ :
          NiftiImage Unit Unit ℚ) 1).data[i]?
        = (([0, 1, 2, 1] : List ℚ))[i]?.map
            (fun v => if v = 1 then (1 : Int) else 0)) :=
  ⟨by decide,
   mask_pointwise_correct (⟨[0, 1, 2, 1], (), ()⟩ : NiftiImage Unit Unit ℚ)
     "m_" none 1 (by decide)⟩

/-- C2: every volume saved by the utility has the same (flattened) grid
shape as the source, and reuses the source affine and header verbatim. -/
theorem mask_shape_affine_header_fidelity {α β : Type}
    (seg_nii : NiftiImage α β ℚ) (pfx : String)
    (label_list : Option (List ℚ)) (p : String × NiftiImage α β Int)
    (h : p ∈ savedNiis (util_create_label_masks seg_nii pfx label_list)) :
    p.2.data.length = seg_nii.data.length ∧
    p.2.affine = seg_nii.affine ∧ p.2.header = seg_nii.header := by
  by_cases hc : label_list = none ∨ resolvedLabels seg_nii.data label_list ≠ []
  · rw [savedNiis_util seg_nii pfx label_list hc] at h
    obtain ⟨l, _, rfl⟩ := List.mem_map.mp h
    exact ⟨by simp [maskImage, makeMask], rfl, rfl⟩
  · push_neg at hc
    obtain ⟨h1, h2⟩ := hc
    cases label_list with
    | none => exact absurd rfl h1
    | some ll =>
        rw [util_early seg_nii pfx ll h2] at h
        simp [savedNiis] at h

/-- Witness for C2: a concrete saved volume from the grid `[0, 1, 2, 1]`
satisfies the fidelity properties. -/
theorem mask_shape_affine_header_fidelity_witness :
    (fnameOf "m_" 1, maskImage (⟨[0, 1, 2, 1], (), ()⟩ :
          NiftiImage Unit Unit ℚ) 1)
        ∈ savedNiis (util_create_label_masks
            (⟨[0, 1, 2, 1], (), ()⟩ : NiftiImage Unit Unit ℚ) "m_" none) ∧
    ((maskImage (⟨[0, 1, 2, 1], (), ()⟩ :
          NiftiImage Unit Unit ℚ) 1).data.length
        = (([0, 1, 2, 1] : List ℚ)).length ∧
      (maskImage (⟨[0, 1, 2, 1], (), ()⟩ :
          NiftiImage Unit Unit ℚ) 1).affine = () ∧
      (maskImage (⟨[0, 1, 2, 1], (), ()⟩ :
          NiftiImage Unit Unit ℚ) 1).header = ()) :=
  ⟨by decide,
   mask_shape_affine_header_fidelity
     (⟨[0, 1, 2, 1], (), ()⟩ : NiftiImage Unit Unit ℚ) "m_" none
     (fnameOf "m_" 1, maskImage (⟨[0, 1, 2, 1], (), ()⟩ :
        NiftiImage Unit Unit ℚ) 1) (by decide)⟩

/-- C3: with no explicit label list the processed labels are exactly the
distinct grid values with 0 removed, in strictly ascending order; 0 is
never processed, and the saved volumes are driven by exactly this label
sequence. -/
theorem auto_labels_sorted_nonzero {α β : Type} (seg_nii : NiftiImage α β ℚ)
    (pfx : String) :
    (∀ x : ℚ, x ∈ discoveredLabels seg_nii.data ↔
        (x ∈ seg_nii.data ∧ x ≠ 0)) ∧
    (discoveredLabels seg_nii.data).Sorted (· < ·) ∧
    (0 : ℚ) ∉ discoveredLabels seg_nii.data ∧
    savedNiis (util_create_label_masks seg_nii pfx none)
      = (discoveredLabels seg_nii.data).map
          (fun l => (fnameOf pfx l, maskImage seg_nii l)) := by
  refine ⟨?_, ?_, ?_, ?_⟩
  · intro x
    simp [discoveredLabels, List.mem_filter, mem_npUnique]
  · exact (sorted_lt_npUnique seg_nii.data).filter _
  · simp [discoveredLabels, List.mem_filter]
  · exact savedNiis_util seg_nii pfx none (Or.inl rfl)

/-- C4: with an explicit label list the processed sequence is the
sub-list of the caller's list whose values occur in the grid, in the
caller's original order, and (when non-empty) it drives the saved
volumes. -/
theorem explicit_labels_filter_preserves_order {α β : Type}
    (seg_nii : NiftiImage α β ℚ) (pfx : String) (ll : List ℚ) :
    filteredLabels seg_nii.data ll
      = ll.filter (fun x => decide (x ∈ seg_nii.data)) ∧
    List.Sublist (filteredLabels seg_nii.data ll) ll ∧
    (filteredLabels seg_nii.data ll ≠ [] →
      savedNiis (util_create_label_masks seg_nii pfx (some ll))
        = (filteredLabels seg_nii.data ll).map
            (fun l => (fnameOf pfx l, maskImage seg_nii l))) := by
  refine ⟨?_, ?_, ?_⟩
  · apply List.filter_congr
    intro a _
    simp [mem_npUnique]
  · exact List.filter_sublist _
  · intro hne
    exact savedNiis_util seg_nii pfx (some ll) (Or.inr hne)

/-- Witness for C4: on the grid `[0, 1, 2, 1]` with explicit list `[2, 5]`
only label 2 survives, in list order, and drives the saved volume. -/
theorem explicit_labels_filter_preserves_order_witness :
    filteredLabels ([0, 1, 2, 1] : List ℚ) [2, 5]
      = ([2, 5] : List ℚ).filter (fun x =>
          decide (x ∈ ([0, 1, 2, 1] : List ℚ))) ∧
    List.Sublist (filteredLabels ([0, 1, 2, 1] : List ℚ) [2, 5])
      ([2, 5] : List ℚ) ∧
    (filteredLabels ([0, 1, 2, 1] : List ℚ) [2, 5] ≠ [] →
      savedNiis (util_create_label_masks
          (⟨[0, 1, 2, 1], (), ()⟩ : NiftiImage Unit Unit ℚ) "m_" (some [2, 5]))
        = (filteredLabels ([0, 1, 2, 1] : List ℚ) [2, 5]).map
            (fun l => (fnameOf "m_" l,
              maskImage (⟨[0, 1, 2, 1], (), ()⟩ :
                NiftiImage Unit Unit ℚ) l))) :=
  explicit_labels_filter_preserves_order
    (⟨[0, 1, 2, 1], (), ()⟩ : NiftiImage Unit Unit ℚ) "m_" [2, 5]

/-- C5: when an explicit label list shares no value with the grid, the
run consists of exactly one diagnostic print: no volume and no text file
is written. -/
theorem empty_intersection_no_output {α β : Type}
    (seg_nii : NiftiImage α β ℚ) (pfx : String) (ll : List ℚ)
    (h : ∀ x ∈ ll, x ∉ seg_nii.data) :
    util_create_label_masks seg_nii pfx (some ll)
      = [Event.print "No specified labels found in segmentation."] ∧
    savedNiis (util_create_label_masks seg_nii pfx (some ll)) = [] ∧
    savedTxts (util_create_label_masks seg_nii pfx (some ll)) = [] := by
  have hemp : filteredLabels seg_nii.data ll = [] := by
    rw [filteredLabels, List.filter_eq_nil_iff]
    intro a ha
    simpa [mem_npUnique] using h a ha
  refine ⟨util_early seg_nii pfx ll hemp, ?_, ?_⟩ <;>
    rw [util_early seg_nii pfx ll hemp] <;> rfl

/-- Witness for C5: the grid `[0, 1, 2, 0]` and the disjoint list
`[5, 9]` produce exactly one diagnostic print. -/
theorem empty_intersection_no_output_witness :
    (∀ x ∈ ([5, 9] : List ℚ), x ∉ ([0, 1, 2, 0] : List ℚ)) ∧
    (util_create_label_masks
        (⟨[0, 1, 2, 0], (), ()⟩ : NiftiImage Unit Unit ℚ) "m_" (some [5, 9])
      = [Event.print "No specified labels found in segmentation."] ∧
    savedNiis (util_create_label_masks
        (⟨[0, 1, 2, 0], (), ()⟩ : NiftiImage Unit Unit ℚ) "m_"
        (some [5, 9])) = [] ∧
    savedTxts (util_create_label_masks
        (⟨[0, 1, 2, 0], (), ()⟩ : NiftiImage Unit Unit ℚ) "m_"
        (some [5, 9])) = []) :=
  ⟨by decide,
   empty_intersection_no_output
     (⟨[0, 1, 2, 0], (), ()⟩ : NiftiImage Unit Unit ℚ) "m_" [5, 9]
     (by decide)⟩

/-- C6: whenever the run reaches its end (auto-discovery, or a non-empty
filtered list), the trace is a body followed by the manifest save to
`pfx ++ "List.csv"` — one `%d`-formatted row per processed label, in
processing order — and the closing report; the body holds all and only
the volume saves, one per processed label, and no text-file save. -/
theorem manifest_after_masks {α β : Type} (seg_nii : NiftiImage α β ℚ)
    (pfx : String) (label_list : Option (List ℚ))
    (h : label_list = none ∨ resolvedLabels seg_nii.data label_list ≠ []) :
    ∃ body : List (Event α β),
      util_create_label_masks seg_nii pfx label_list
        = body ++ [Event.saveTxt (pfx ++ "List.csv")
              ((resolvedLabels seg_nii.data label_list).map
                (fun l => toString (pyInt l))),
            Event.print ("Saved list of labels to " ++ (pfx ++ "List.csv"))] ∧
      savedNiis body = (resolvedLabels seg_nii.data label_list).map
          (fun l => (fnameOf pfx l, maskImage seg_nii l)) ∧
      savedTxts body = [] := by
  refine ⟨((resolvedLabels seg_nii.data label_list).map
      (perLabelEvents seg_nii pfx)).flatten, ?_, ?_, ?_⟩
  · rw [util_run_eq seg_nii pfx label_list h]
    rfl
  · exact savedNiis_perLabel_flatten seg_nii pfx _
  · exact savedTxts_perLabel_flatten seg_nii pfx _

/-- Witness for C6: the auto-discovery run on the grid `[0, 1, 2, 1]`
ends with the manifest save and report. -/
theorem manifest_after_masks_witness :
    (none = (none : Option (List ℚ)) ∨
      resolvedLabels ([0, 1, 2, 1] : List ℚ) none ≠ []) ∧
    ∃ body : List (Event Unit Unit),
      util_create_label_masks
          (⟨[0, 1, 2, 1], (), ()⟩ : NiftiImage Unit Unit ℚ) "m_" none
        = body ++ [Event.saveTxt ("m_" ++ "List.csv")
              ((resolvedLabels ([0, 1, 2, 1] : List ℚ) none).map
                (fun l => toString (pyInt l))),
            Event.print ("Saved list of labels to " ++ ("m_" ++ "List.csv"))] ∧
      savedNiis body = (resolvedLabels ([0, 1, 2, 1] : List ℚ) none).map
          (fun l => (fnameOf "m_" l,
            maskImage (⟨[0, 1, 2, 1], (), ()⟩ : NiftiImage Unit Unit ℚ) l)) ∧
      savedTxts body = [] :=
  ⟨Or.inl rfl,
   manifest_after_masks
     (⟨[0, 1, 2, 1], (), ()⟩ : NiftiImage Unit Unit ℚ) "m_" none
     (Or.inl rfl)⟩

/-- C7: the file names of the saved volumes are exactly the output
prefix, the label rendered through Python's `int()` in plain decimal,
and the `.nii.gz` suffix, one per processed label in processing order. -/
theorem mask_filename_format {α β : Type} (seg_nii : NiftiImage α β ℚ)
    (pfx : String) (label_list : Option (List ℚ))
    (h : label_list = none ∨ resolvedLabels seg_nii.data label_list ≠ []) :
    (savedNiis (util_create_label_masks seg_nii pfx label_list)).map
        Prod.fst
      = (resolvedLabels seg_nii.data label_list).map
          (fun l => pfx ++ toString (pyInt l) ++ ".nii.gz") := by
  rw [savedNiis_util seg_nii pfx label_list h, List.map_map]
  rfl

/-- Witness for C7: the auto-discovery run on the grid `[0, 1, 2, 1]`
saves exactly the files `m_1.nii.gz` and `m_2.nii.gz`, in this order. -/
theorem mask_filename_format_witness :
    (savedNiis (util_create_label_masks
        (⟨[0, 1, 2, 1], (), ()⟩ : NiftiImage Unit Unit ℚ) "m_" none)).map
        Prod.fst
      = (resolvedLabels ([0, 1, 2, 1] : List ℚ) none).map
          (fun l => "m_" ++ toString (pyInt l) ++ ".nii.gz") :=
  mask_filename_format
    (⟨[0, 1, 2, 1], (), ()⟩ : NiftiImage Unit Unit ℚ) "m_" none (Or.inl rfl)

/-- C8: duplicates in an explicit label list are not de-duplicated: a
label present in the grid keeps its full multiplicity in the processed
sequence, so it is saved once per occurrence and contributes one
manifest row per occurrence. -/
theorem duplicate_labels_not_deduplicated {α β : Type}
    (seg_nii : NiftiImage α β ℚ) (pfx : String) (ll : List ℚ) (x : ℚ)
    (hx : x ∈ seg_nii.data) (hk : 0 < ll.count x) :
    (filteredLabels seg_nii.data ll).count x = ll.count x ∧
    savedNiis (util_create_label_masks seg_nii pfx (some ll))
      = (filteredLabels seg_nii.data ll).map
          (fun l => (fnameOf pfx l, maskImage seg_nii l)) ∧
    savedTxts (util_create_label_masks seg_nii pfx (some ll))
      = [(pfx ++ "List.csv",
          (filteredLabels seg_nii.data ll).map
            (fun l => toString (pyInt l)))] := by
  have hxl : x ∈ ll := List.count_pos_iff.mp hk
  have hmem : x ∈ filteredLabels seg_nii.data ll := by
    rw [filteredLabels, List.mem_filter]
    exact ⟨hxl, by simpa [mem_npUnique] using hx⟩
  have hne : filteredLabels seg_nii.data ll ≠ [] :=
    List.ne_nil_of_mem hmem
  refine ⟨?_, savedNiis_util seg_nii pfx (some ll) (Or.inr hne),
    savedTxts_util seg_nii pfx (some ll) (Or.inr hne)⟩
  exact List.count_filter (by simpa [mem_npUnique] using hx)

/-- Witness for C8: the list `[2, 2, 5]` against the grid `[0, 1, 2]`
keeps both copies of label 2. -/
theorem duplicate_labels_not_deduplicated_witness :
    ((2 : ℚ) ∈ ([0, 1, 2] : List ℚ) ∧ 0 < ([2, 2, 5] : List ℚ).count 2) ∧
    ((filteredLabels ([0, 1, 2] : List ℚ) [2, 2, 5]).count 2
        = ([2, 2, 5] : List ℚ).count 2 ∧
      savedNiis (util_create_label_masks
          (⟨[0, 1, 2], (), ()⟩ : NiftiImage Unit Unit ℚ) "m_"
          (some [2, 2, 5]))
        = (filteredLabels ([0, 1, 2] : List ℚ) [2, 2, 5]).map
            (fun l => (fnameOf "m_" l,
              maskImage (⟨[0, 1, 2], (), ()⟩ : NiftiImage Unit Unit ℚ) l)) ∧
      savedTxts (util_create_label_masks
          (⟨[0, 1, 2], (), ()⟩ : NiftiImage Unit Unit ℚ) "m_"
          (some [2, 2, 5]))
        = [("m_" ++ "List.csv",
            (filteredLabels ([0, 1, 2] : List ℚ) [2, 2, 5]).map
              (fun l => toString (pyInt l)))]) :=
  ⟨⟨by decide, by decide⟩,
   duplicate_labels_not_deduplicated
     (⟨[0, 1, 2], (), ()⟩ : NiftiImage Unit Unit ℚ) "m_" [2, 2, 5] 2
     (by decide) (by decide)⟩

/-- C9: with no explicit list and a grid holding only zeros, the run does
not return early: it saves no volume, but still writes the manifest file
as an empty text file and reports that write. -/
theorem empty_autodiscovery_writes_empty_manifest {α β : Type}
    (seg_nii : NiftiImage α β ℚ) (pfx : String)
    (h : ∀ v ∈ seg_nii.data, v = 0) :
    util_create_label_masks seg_nii pfx none
      = [Event.saveTxt (pfx ++ "List.csv") [],
         Event.print ("Saved list of labels to " ++ (pfx ++ "List.csv"))] := by
  have hd : discoveredLabels seg_nii.data = [] := by
    rw [discoveredLabels, List.filter_eq_nil_iff]
    intro a ha
    simpa using h a (mem_npUnique.mp ha)
  simp [util_create_label_masks, hd, manifestEvents]

/-- Witness for C9: the all-zero grid `[0, 0]` yields exactly the empty
manifest save and its report. -/
theorem empty_autodiscovery_writes_empty_manifest_witness :
    (∀ v ∈ ([0, 0] : List ℚ), v = 0) ∧
    util_create_label_masks
        (⟨[0, 0], (), ()⟩ : NiftiImage Unit Unit ℚ) "m_" none
      = [Event.saveTxt ("m_" ++ "List.csv") [],
         Event.print ("Saved list of labels to " ++ ("m_" ++ "List.csv"))] :=
  ⟨by decide,
   empty_autodiscovery_writes_empty_manifest
     (⟨[0, 0], (), ()⟩ : NiftiImage Unit Unit ℚ) "m_" (by decide)⟩

/-- C10: file names and console rows embed `int(label)` (truncation
toward zero), so two distinct processed labels with equal truncation are
saved to one and the same path, while the manifest still gets one row
per processed label. -/
theorem truncation_collision_same_path {α β : Type}
    (seg_nii : NiftiImage α β ℚ) (pfx : String)
    (label_list : Option (List ℚ)) (x y : ℚ)
    (hxy : x ≠ y) (hpi : pyInt x = pyInt y)
    (hx : x ∈ resolvedLabels seg_nii.data label_list)
    (hy : y ∈ resolvedLabels seg_nii.data label_list) :
    fnameOf pfx x = fnameOf pfx y ∧
    (fnameOf pfx x, maskImage seg_nii x)
        ∈ savedNiis (util_create_label_masks seg_nii pfx label_list) ∧
    (fnameOf pfx x, maskImage seg_nii y)
        ∈ savedNiis (util_create_label_masks seg_nii pfx label_list) ∧
    savedTxts (util_create_label_masks seg_nii pfx label_list)
      = [(pfx ++ "List.csv",
          (resolvedLabels seg_nii.data label_list).map
            (fun l => toString (pyInt l)))] := by
  have hf : fnameOf pfx x = fnameOf pfx y := by
    rw [fnameOf, fnameOf, hpi]
  have hrun : label_list = none ∨
      resolvedLabels seg_nii.data label_list ≠ [] :=
    Or.inr (List.ne_nil_of_mem hx)
  refine ⟨hf, ?_, ?_, savedTxts_util seg_nii pfx label_list hrun⟩
  · rw [savedNiis_util seg_nii pfx label_list hrun]
    exact List.mem_map_of_mem _ hx
  · rw [savedNiis_util seg_nii pfx label_list hrun, hf]
    exact List.mem_map_of_mem _ hy

/-- Witness for C10: on the grid `[0, 5/2, 2]` the auto-discovered labels
2 and 5/2 are distinct but both truncate to 2, so both volumes go to the
same path while the manifest gets two rows. -/
theorem truncation_collision_same_path_witness :
    ((qFiveHalves ≠ 2 ∧ pyInt qFiveHalves = pyInt 2) ∧
      qFiveHalves ∈ resolvedLabels ([0, qFiveHalves, 2] : List ℚ) none ∧
      (2 : ℚ) ∈ resolvedLabels ([0, qFiveHalves, 2] : List ℚ) none) ∧
    (fnameOf "m_" qFiveHalves = fnameOf "m_" 2 ∧
      (fnameOf "m_" qFiveHalves,
          maskImage (⟨[0, qFiveHalves, 2], (), ()⟩ :
            NiftiImage Unit Unit ℚ) qFiveHalves)
        ∈ savedNiis (util_create_label_masks
            (⟨[0, qFiveHalves, 2], (), ()⟩ : NiftiImage Unit Unit ℚ)
            "m_" none) ∧
      (fnameOf "m_" qFiveHalves,
          maskImage (⟨[0, qFiveHalves, 2], (), ()⟩ :
            NiftiImage Unit Unit ℚ) 2)
        ∈ savedNiis (util_create_label_masks
            (⟨[0, qFiveHalves, 2], (), ()⟩ : NiftiImage Unit Unit ℚ)
            "m_" none) ∧
      savedTxts (util_create_label_masks
          (⟨[0, qFiveHalves, 2], (), ()⟩ : NiftiImage Unit Unit ℚ) "m_" none)
        = [("m_" ++ "List.csv",
            (resolvedLabels ([0, qFiveHalves, 2] : List ℚ) none).map
              (fun l => toString (pyInt l)))]) :=
  ⟨⟨⟨by decide, by decide⟩, by decide, by decide⟩,
   truncation_collision_same_path
     (⟨[0, qFiveHalves, 2], (), ()⟩ : NiftiImage Unit Unit ℚ) "m_" none
     qFiveHalves 2 (by decide) (by decide) (by decide) (by decide)⟩
